import Mathlib

/-!
Verification of the financial simulation core of the wealth-planning API:
the wealth-projection engine (`simulateWealthCurve`), the annual-to-monthly
rate converter (`calculateMonthlyRate`), and the goal-alignment calculator
(`calculateAlignment`).

The exact-decimal `Decimal` type of the implementation is modelled as an
exact ordered field: the simulation and the rate converter over the reals
(the rate converter uses a power with fractional exponent `1/12`), the
alignment calculator over the rationals.  Calendar dates are modelled as an
absolute month counter `t` (month `t` is year `t / 12`, month-of-year
`t % 12`, with January = 0 and December = 11); the simulation loop of the
source runs while the date is before 2061-01-01, i.e. while `t < 24732`.
-/

namespace WealthPlanning

/-- Event category from the data model: the sign of an event is derived
from its category (INCOME adds, EXPENSE subtracts). -/
inductive EventCategory where
  | INCOME
  | EXPENSE
deriving DecidableEq

/-- Event frequency from the data model. -/
inductive EventFrequency where
  | UNIQUE
  | MONTHLY
  | ANNUAL
deriving DecidableEq

/-- A cash-flow event: a (positive) amount, a category and a frequency.
The amount type is a parameter `K` (an exact ordered field standing for
the implementation's exact decimal type). -/
structure Event (K : Type) where
  value : K
  category : EventCategory
  frequency : EventFrequency

/-- One recorded snapshot of the projection: a calendar year and the
balance at the end of that year's December. -/
structure ProjectionPoint (K : Type) where
  year : ℕ
  projectedValue : K
deriving DecidableEq

/-- Embeds `calculateValueAfterEvents` of the projection service: a reduce
over the event list that adds each event's signed value (INCOME positive,
EXPENSE negated) to the accumulator, starting from `currentValue`. -/
def calculateValueAfterEvents {K : Type} [LinearOrderedField K]
    (events : List (Event K)) (currentValue : K) : K :=
  events.foldl
    (fun acc event =>
      acc + (if event.category = EventCategory.INCOME then event.value else -event.value))
    currentValue

/-- Embeds `calculateMonthlyRate` of `src/utils/finance.ts`:
`Decimal(annualRate).div(100).plus(1).pow(Decimal(1).div(12)).minus(1)`,
i.e. `(annualRate / 100 + 1) ^ (1/12) - 1` with a real (fractional)
exponent. -/
noncomputable def calculateMonthlyRate (annualRate : ℝ) : ℝ :=
  (annualRate / 100 + 1) ^ ((1 : ℝ) / 12) - 1

/-- The body of one iteration of the simulation's `while` loop, balance
part only: if the month is January (`t % 12 = 0`) apply the annual events,
then apply the monthly events, then multiply by `monthlyRate + 1`. -/
def monthStep {K : Type} [LinearOrderedField K]
    (annualEvents monthlyEvents : List (Event K)) (monthlyRate : K)
    (t : ℕ) (b : K) : K :=
  calculateValueAfterEvents monthlyEvents
      (if t % 12 = 0 then calculateValueAfterEvents annualEvents b else b)
    * (monthlyRate + 1)

/-- The simulation's `while (currentDate < 2061-01-01)` loop over the
absolute month counter `t` (so the loop runs while `t < 2061 * 12`): each
iteration steps the balance by `monthStep` and, when the month is December
(`t % 12 = 11`) and the year is at most 2060, pushes a projection point
carrying the just-updated balance. -/
def simLoop {K : Type} [LinearOrderedField K]
    (annualEvents monthlyEvents : List (Event K)) (monthlyRate : K)
    (t : ℕ) (b : K) : List (ProjectionPoint K) :=
  if h : t < 24732 then
    if t % 12 = 11 ∧ t / 12 ≤ 2060 then
      ⟨t / 12, monthStep annualEvents monthlyEvents monthlyRate t b⟩
        :: simLoop annualEvents monthlyEvents monthlyRate (t + 1)
            (monthStep annualEvents monthlyEvents monthlyRate t b)
    else
      simLoop annualEvents monthlyEvents monthlyRate (t + 1)
        (monthStep annualEvents monthlyEvents monthlyRate t b)
  else []
termination_by 24732 - t

/-- Embeds `simulateWealthCurve` of the projection service: partition the
events by frequency, apply the unique events once to the initial balance,
then run the monthly loop from the current month
(`t = 12 * startYear + startMonth`) to the end of 2060.  The start date
(`startYear`, `startMonth`, with January = 0) models the implicit
current date `now` of the source. -/
noncomputable def simulateWealthCurve (initialValue : ℝ) (events : List (Event ℝ))
    (annualRate : ℝ) (startYear startMonth : ℕ) : List (ProjectionPoint ℝ) :=
  simLoop (events.filter fun e => decide (e.frequency = EventFrequency.ANNUAL))
    (events.filter fun e => decide (e.frequency = EventFrequency.MONTHLY))
    (calculateMonthlyRate annualRate)
    (12 * startYear + startMonth)
    (calculateValueAfterEvents
      (events.filter fun e => decide (e.frequency = EventFrequency.UNIQUE)) initialValue)

/-- Embeds `generateProjectionForClient`: the wallet lookup result is the
`Option ℝ` argument (`none` = no wallet record); with no wallet it fails
with a `ProjectionError`, otherwise it simulates from the wallet's total
value. -/
noncomputable def generateProjectionForClient (wallet : Option ℝ)
    (events : List (Event ℝ)) (annualRate : ℝ) (startYear startMonth : ℕ) :
    Except String (List (ProjectionPoint ℝ)) :=
  match wallet with
  | none =>
      Except.error "Cliente nao possui uma carteira cadastrada para iniciar a projecao."
  | some totalValue =>
      Except.ok (simulateWealthCurve totalValue events annualRate startYear startMonth)

/-- A goal: only the target value matters to the core. -/
structure Goal where
  targetValue : ℚ
deriving DecidableEq

/-- Alignment category returned by the alignment calculator. -/
inductive AlignmentCategory where
  | green
  | yellowLight
  | yellowDark
  | red
deriving DecidableEq

/-- Result of the alignment calculation (the implementation renders the
percentage as an exact decimal string; the numeric value is modelled). -/
structure AlignmentResult where
  alignmentPercentage : ℚ
  category : AlignmentCategory
deriving DecidableEq

/-- The goal reduce of `calculateAlignment`: sum of all goal target values
starting from `Decimal(0)`. -/
def plannedPatrimony (goals : List Goal) : ℚ :=
  goals.foldl (fun sum goal => sum + goal.targetValue) 0

/-- The category if-chain of `calculateAlignment`, evaluated in source
order: `gt(90)` green, `gte(70)` yellow-light, `gte(50)` yellow-dark,
otherwise red. -/
def alignmentCategory (p : ℚ) : AlignmentCategory :=
  if 90 < p then AlignmentCategory.green
  else if 70 ≤ p then AlignmentCategory.yellowLight
  else if 50 ≤ p then AlignmentCategory.yellowDark
  else AlignmentCategory.red

/-- Embeds `calculateAlignment`: the wallet lookup result is the
`Option ℚ` argument (`none` = no wallet record), the goal lookup result is
the list.  No wallet or an empty goal list fails with an `AlignmentError`;
a zero planned patrimony returns 100 / green; otherwise the percentage is
`totalValue / plannedPatrimony * 100` and the category follows the
if-chain. -/
def calculateAlignment (wallet : Option ℚ) (goals : List Goal) :
    Except String AlignmentResult :=
  match wallet with
  | none =>
      Except.error "O cliente nao possui uma carteira cadastrada para calcular o alinhamento."
  | some totalValue =>
      if goals.length = 0 then
        Except.error "O cliente nao possui metas cadastradas para calcular o alinhamento."
      else if plannedPatrimony goals = 0 then
        Except.ok ⟨100, AlignmentCategory.green⟩
      else
        Except.ok ⟨totalValue / plannedPatrimony goals * 100,
          alignmentCategory (totalValue / plannedPatrimony goals * 100)⟩

/-- Modelled from the spec for the refinement claim C1: the signed value
of an event ("INCOME contributes positively, EXPENSE negatively"). -/
def signedValue {K : Type} [LinearOrderedField K] (e : Event K) : K :=
  if e.category = EventCategory.INCOME then e.value else -e.value

/-- Modelled from the spec for the refinement claim C1: the "sum of signed
amounts" of a list of events. -/
def signedSum {K : Type} [LinearOrderedField K] (events : List (Event K)) : K :=
  (events.map signedValue).sum

/-!  Helper lemmas about the embedded definitions. -/

/-- The event reduce adds the signed sum of the events to the accumulator. -/
theorem calculateValueAfterEvents_eq {K : Type} [LinearOrderedField K]
    (events : List (Event K)) (b : K) :
    calculateValueAfterEvents events b = b + signedSum events := by
  induction events generalizing b with
  | nil => simp [calculateValueAfterEvents, signedSum]
  | cons e es ih =>
      have h1 : calculateValueAfterEvents (e :: es) b
          = calculateValueAfterEvents es (b + signedValue e) := by
        simp [calculateValueAfterEvents, signedValue]
      rw [h1, ih]
      simp [signedSum]
      ring

/-- With no events, one month of the loop is pure compounding. -/
theorem monthStep_nil {K : Type} [LinearOrderedField K] (mr : K) (t : ℕ) (b : K) :
    monthStep ([] : List (Event K)) [] mr t b = b * (mr + 1) := by
  simp [monthStep, calculateValueAfterEvents]

/-- Peeling one year off the horizon interval. -/
theorem range'_2061_cons (s : ℕ) (h : s ≤ 2060) :
    List.range' s (2061 - s) = s :: List.range' (s + 1) (2061 - (s + 1)) := by
  have hlen : 2061 - s = (2061 - (s + 1)) + 1 := by omega
  rw [hlen, List.range'_succ]

/-- Fuelled induction: the years recorded by the loop started at month `t`
are exactly `t / 12, …, 2060`, whatever the events and the balance. -/
theorem simLoop_years_aux {K : Type} [LinearOrderedField K]
    (aE mE : List (Event K)) (mr : K) :
    ∀ (n t : ℕ) (b : K), 24732 - t ≤ n →
      (simLoop aE mE mr t b).map (fun p => p.year)
        = List.range' (t / 12) (2061 - t / 12) := by
  intro n
  induction n with
  | zero =>
      intro t b h
      rw [simLoop, dif_neg (by omega : ¬ t < 24732)]
      have h0 : 2061 - t / 12 = 0 := by omega
      simp [h0]
  | succ n ih =>
      intro t b h
      by_cases hlt : t < 24732
      · rw [simLoop, dif_pos hlt]
        by_cases hrec : t % 12 = 11 ∧ t / 12 ≤ 2060
        · have hdiv : (t + 1) / 12 = t / 12 + 1 := by omega
          rw [if_pos hrec, List.map_cons, ih (t + 1) _ (by omega), hdiv,
            range'_2061_cons _ hrec.2]
        · have hle : t / 12 ≤ 2060 := by omega
          have hdiv : (t + 1) / 12 = t / 12 := by omega
          rw [if_neg hrec, ih (t + 1) _ (by omega), hdiv]
      · rw [simLoop, dif_neg hlt]
        have h0 : 2061 - t / 12 = 0 := by omega
        simp [h0]

/-- The years recorded by the loop started at month `t` are exactly
`t / 12, …, 2060`, whatever the events and the balance. -/
theorem simLoop_years {K : Type} [LinearOrderedField K]
    (aE mE : List (Event K)) (mr : K) (t : ℕ) (b : K) :
    (simLoop aE mE mr t b).map (fun p => p.year)
      = List.range' (t / 12) (2061 - t / 12) :=
  simLoop_years_aux aE mE mr 24732 t b (by omega)

/-- Fuelled induction: with no events the loop records, for each year `y`
from `t / 12` to 2060, the value `b * (mr + 1) ^ (12 * (y + 1) - t)`. -/
theorem simLoop_nil_aux {K : Type} [LinearOrderedField K] (mr : K) :
    ∀ (n t : ℕ) (b : K), 24732 - t ≤ n →
      simLoop ([] : List (Event K)) [] mr t b
        = (List.range' (t / 12) (2061 - t / 12)).map
            (fun y => ⟨y, b * (mr + 1) ^ (12 * (y + 1) - t)⟩) := by
  intro n
  induction n with
  | zero =>
      intro t b h
      rw [simLoop, dif_neg (by omega : ¬ t < 24732)]
      have h0 : 2061 - t / 12 = 0 := by omega
      simp [h0]
  | succ n ih =>
      intro t b h
      by_cases hlt : t < 24732
      · rw [simLoop, dif_pos hlt, monthStep_nil]
        by_cases hrec : t % 12 = 11 ∧ t / 12 ≤ 2060
        · have hdiv : (t + 1) / 12 = t / 12 + 1 := by omega
          rw [if_pos hrec, ih (t + 1) _ (by omega), hdiv,
            range'_2061_cons _ hrec.2, List.map_cons]
          congr 1
          · have he : 12 * (t / 12 + 1) - t = 1 := by
              have := hrec.1
              omega
            simp [he]
          · apply List.map_congr_left
            intro y hy
            rw [List.mem_range'_1] at hy
            have he : 12 * (y + 1) - t = (12 * (y + 1) - (t + 1)) + 1 := by omega
            simp only [ProjectionPoint.mk.injEq, true_and]
            rw [he, pow_succ]
            ring
        · have hle : t / 12 ≤ 2060 := by omega
          have hdiv : (t + 1) / 12 = t / 12 := by omega
          rw [if_neg hrec, ih (t + 1) _ (by omega), hdiv]
          apply List.map_congr_left
          intro y hy
          rw [List.mem_range'_1] at hy
          have he : 12 * (y + 1) - t = (12 * (y + 1) - (t + 1)) + 1 := by omega
          simp only [ProjectionPoint.mk.injEq, true_and]
          rw [he, pow_succ]
          ring
      · rw [simLoop, dif_neg hlt]
        have h0 : 2061 - t / 12 = 0 := by omega
        simp [h0]

/-- Closed form of the loop with no events: pure compounding, one point
per year from `t / 12` to 2060. -/
theorem simLoop_nil {K : Type} [LinearOrderedField K] (mr : K) (t : ℕ) (b : K) :
    simLoop ([] : List (Event K)) [] mr t b
      = (List.range' (t / 12) (2061 - t / 12)).map
          (fun y => ⟨y, b * (mr + 1) ^ (12 * (y + 1) - t)⟩) :=
  simLoop_nil_aux mr 24732 t b (by omega)

/-- Simulating with an empty event list is the bare compounding loop. -/
theorem simulateWealthCurve_nil (init r : ℝ) (sy sm : ℕ) :
    simulateWealthCurve init [] r sy sm
      = simLoop [] [] (calculateMonthlyRate r) (12 * sy + sm) init := rfl

/-- A zero annual rate converts to a zero monthly rate. -/
theorem calculateMonthlyRate_zero : calculateMonthlyRate 0 = 0 := by
  rw [calculateMonthlyRate]
  norm_num

/-- A positive annual rate converts to a positive monthly rate. -/
theorem calculateMonthlyRate_pos (r : ℝ) (h : 0 < r) : 0 < calculateMonthlyRate r := by
  have hx : (1 : ℝ) < r / 100 + 1 := by linarith
  have h1 : (1 : ℝ) < (r / 100 + 1) ^ ((1 : ℝ) / 12) :=
    (Real.one_lt_rpow_iff_of_pos (by linarith)).2 (Or.inl ⟨hx, by norm_num⟩)
  rw [calculateMonthlyRate]
  linarith

/-!  Claim theorems. -/

/-- C6: for every annual rate r at least 0 given as a percentage, the rate
converter returns the monthly multiplier m equal to (1 + r/100)^(1/12) - 1
with the fractional exponent 1/12, and compounding monthly for 12 months
reproduces the annual rate exactly: (1 + m)^12 = 1 + r/100. -/
theorem claim_C6 (r : ℝ) (h : 0 ≤ r) :
    calculateMonthlyRate r = (1 + r / 100) ^ ((1 : ℝ) / 12) - 1 ∧
    (1 + calculateMonthlyRate r) ^ (12 : ℕ) = 1 + r / 100 := by
  have hx : (0 : ℝ) ≤ r / 100 + 1 := by linarith
  constructor
  · rw [calculateMonthlyRate, add_comm (r / 100) 1]
  · have h1 : 1 + calculateMonthlyRate r = (r / 100 + 1) ^ ((1 : ℝ) / 12) := by
      rw [calculateMonthlyRate]
      ring
    rw [h1, ← Real.rpow_natCast ((r / 100 + 1) ^ ((1 : ℝ) / 12)) 12, ← Real.rpow_mul hx]
    norm_num
    ring

/-- Witness for C6 at the default annual rate 4. -/
theorem claim_C6_witness :
    calculateMonthlyRate 4 = (1 + 4 / 100) ^ ((1 : ℝ) / 12) - 1 ∧
    (1 + calculateMonthlyRate 4) ^ (12 : ℕ) = 1 + 4 / 100 :=
  claim_C6 4 (by norm_num)

/-- C9: for annual rate 0 and an empty event list every projected value in
the returned projection equals the initial value (the monthly multiplier
is exactly 1, the simulation is the identity on the balance). -/
theorem claim_C9 (init : ℝ) (sy sm : ℕ) :
    (simulateWealthCurve init [] 0 sy sm).map (fun p => p.projectedValue)
      = List.replicate (simulateWealthCurve init [] 0 sy sm).length init := by
  rw [simulateWealthCurve_nil, simLoop_nil, calculateMonthlyRate_zero]
  simp [Function.comp_def, List.map_const']

/-- C2: the projection has exactly 2060 - startYear + 1 points, the first
point's year is the start (current) year, the last is 2060, and the years
are consecutive and strictly ascending (they are the interval
startYear, …, 2060). -/
theorem claim_C2 (init : ℝ) (events : List (Event ℝ)) (r : ℝ) (sy sm : ℕ)
    (h1 : sy ≤ 2060) (h2 : sm ≤ 11) :
    (simulateWealthCurve init events r sy sm).length = 2060 - sy + 1 ∧
    (simulateWealthCurve init events r sy sm).map (fun p => p.year)
      = List.range' sy (2060 - sy + 1) ∧
    (simulateWealthCurve init events r sy sm).head?.map (fun p => p.year) = some sy := by
  have hdiv : (12 * sy + sm) / 12 = sy := by omega
  have hy : (simulateWealthCurve init events r sy sm).map (fun p => p.year)
      = List.range' sy (2060 - sy + 1) := by
    rw [simulateWealthCurve, simLoop_years, hdiv]
    congr 1
    omega
  refine ⟨?_, hy, ?_⟩
  · have hl := congrArg List.length hy
    rwa [List.length_map, List.length_range'] at hl
  · rw [← List.head?_map, hy, List.range'_succ]
    rfl

/-- Witness for C2 with a start in April 2058. -/
theorem claim_C2_witness :
    (simulateWealthCurve 100 [] 4 2058 3).length = 2060 - 2058 + 1 ∧
    (simulateWealthCurve 100 [] 4 2058 3).map (fun p => p.year)
      = List.range' 2058 (2060 - 2058 + 1) ∧
    (simulateWealthCurve 100 [] 4 2058 3).head?.map (fun p => p.year) = some 2058 :=
  claim_C2 100 [] 4 2058 3 (by norm_num) (by norm_num)

/-- C3: with a wallet and a non-empty goal list, a zero planned total
yields percentage 100 and category green regardless of the wallet value;
otherwise the percentage is currentValue / plannedTotal * 100.  The
concrete scenario: wallet 1000 with goals 3000, 3000, 4000 yields
percentage 10 and category red. -/
theorem claim_C3 (w : ℚ) (goals : List Goal) (hne : goals ≠ []) :
    (plannedPatrimony goals = 0 →
      calculateAlignment (some w) goals = Except.ok ⟨100, AlignmentCategory.green⟩) ∧
    (plannedPatrimony goals ≠ 0 →
      calculateAlignment (some w) goals
        = Except.ok ⟨w / plannedPatrimony goals * 100,
            alignmentCategory (w / plannedPatrimony goals * 100)⟩) ∧
    calculateAlignment (some 1000) [⟨3000⟩, ⟨3000⟩, ⟨4000⟩]
      = Except.ok ⟨10, AlignmentCategory.red⟩ := by
  have hlen : ¬ goals.length = 0 := by simpa [List.length_eq_zero] using hne
  refine ⟨?_, ?_, ?_⟩
  · intro h0
    simp [calculateAlignment, hlen, h0]
  · intro h0
    simp [calculateAlignment, hlen, h0]
  · norm_num [calculateAlignment, plannedPatrimony, alignmentCategory]

/-- Witness for C3 with one zero-target goal. -/
theorem claim_C3_witness :
    (plannedPatrimony [⟨0⟩] = 0 →
      calculateAlignment (some 7) [⟨0⟩] = Except.ok ⟨100, AlignmentCategory.green⟩) ∧
    (plannedPatrimony [⟨0⟩] ≠ 0 →
      calculateAlignment (some 7) [⟨0⟩]
        = Except.ok ⟨7 / plannedPatrimony [⟨0⟩] * 100,
            alignmentCategory (7 / plannedPatrimony [⟨0⟩] * 100)⟩) ∧
    calculateAlignment (some 1000) [⟨3000⟩, ⟨3000⟩, ⟨4000⟩]
      = Except.ok ⟨10, AlignmentCategory.red⟩ :=
  claim_C3 7 [⟨0⟩] (by decide)

/-- C4: the category boundaries, evaluated in source order: percentage
above 90 is green, in [70, 90] yellow-light, in [50, 70) yellow-dark,
below 50 red; in particular exactly 90 is yellow-light, not green. -/
theorem claim_C4 (p : ℚ) :
    (90 < p → alignmentCategory p = AlignmentCategory.green) ∧
    (70 ≤ p ∧ p ≤ 90 → alignmentCategory p = AlignmentCategory.yellowLight) ∧
    (50 ≤ p ∧ p < 70 → alignmentCategory p = AlignmentCategory.yellowDark) ∧
    (p < 50 → alignmentCategory p = AlignmentCategory.red) ∧
    (p = 90 → alignmentCategory p = AlignmentCategory.yellowLight) := by
  refine ⟨?_, ?_, ?_, ?_, ?_⟩
  · intro h
    rw [alignmentCategory, if_pos h]
  · rintro ⟨ha, hb⟩
    rw [alignmentCategory, if_neg (by linarith), if_pos ha]
  · rintro ⟨ha, hb⟩
    rw [alignmentCategory, if_neg (by linarith), if_neg (by linarith), if_pos ha]
  · intro h
    rw [alignmentCategory, if_neg (by linarith), if_neg (by linarith),
      if_neg (by linarith)]
  · intro h
    subst h
    rw [alignmentCategory, if_neg (by norm_num), if_pos (by norm_num)]

/-- Witness for C4 at the boundary percentage 90. -/
theorem claim_C4_witness : alignmentCategory 90 = AlignmentCategory.yellowLight :=
  (claim_C4 90).2.2.2.2 rfl

/-- C5: the alignment calculation fails with a domain error exactly when
there is no wallet or the goal list is empty, and the projection fails
exactly when there is no wallet; with the data present both return a
result. -/
theorem claim_C5 (wq : ℚ) (wr : ℝ) (g : Goal) (gs goals : List Goal)
    (events : List (Event ℝ)) (r : ℝ) (sy sm : ℕ) :
    (∃ msg, calculateAlignment none goals = Except.error msg) ∧
    (∃ msg, calculateAlignment (some wq) [] = Except.error msg) ∧
    (∃ res, calculateAlignment (some wq) (g :: gs) = Except.ok res) ∧
    (∃ msg, generateProjectionForClient none events r sy sm = Except.error msg) ∧
    generateProjectionForClient (some wr) events r sy sm
      = Except.ok (simulateWealthCurve wr events r sy sm) := by
  refine ⟨⟨_, rfl⟩, ⟨_, rfl⟩, ?_, ⟨_, rfl⟩, rfl⟩
  by_cases h0 : plannedPatrimony (g :: gs) = 0
  · exact ⟨⟨100, AlignmentCategory.green⟩, by simp [calculateAlignment, h0]⟩
  · exact ⟨⟨wq / plannedPatrimony (g :: gs) * 100,
      alignmentCategory (wq / plannedPatrimony (g :: gs) * 100)⟩,
      by simp [calculateAlignment, h0]⟩

/-- C10: the percentage is unclamped (a wallet exceeding the planned total
reports a percentage above 100 with category green) and the four category
ranges are mutually exclusive and exhaustive. -/
theorem claim_C10 (w p : ℚ) (goals : List Goal)
    (hpos : 0 < plannedPatrimony goals) (hover : plannedPatrimony goals < w) :
    calculateAlignment (some w) goals
      = Except.ok ⟨w / plannedPatrimony goals * 100, AlignmentCategory.green⟩ ∧
    100 < w / plannedPatrimony goals * 100 ∧
    ((90 < p ∧ alignmentCategory p = AlignmentCategory.green
        ∧ ¬(70 ≤ p ∧ p ≤ 90) ∧ ¬(50 ≤ p ∧ p < 70) ∧ ¬p < 50)
      ∨ ((70 ≤ p ∧ p ≤ 90) ∧ alignmentCategory p = AlignmentCategory.yellowLight
        ∧ ¬90 < p ∧ ¬(50 ≤ p ∧ p < 70) ∧ ¬p < 50)
      ∨ ((50 ≤ p ∧ p < 70) ∧ alignmentCategory p = AlignmentCategory.yellowDark
        ∧ ¬90 < p ∧ ¬(70 ≤ p ∧ p ≤ 90) ∧ ¬p < 50)
      ∨ (p < 50 ∧ alignmentCategory p = AlignmentCategory.red
        ∧ ¬90 < p ∧ ¬(70 ≤ p ∧ p ≤ 90) ∧ ¬(50 ≤ p ∧ p < 70))) := by
  have hne : goals ≠ [] := by
    intro hc
    rw [hc] at hpos
    simp [plannedPatrimony] at hpos
  have hlen : ¬ goals.length = 0 := by simpa [List.length_eq_zero] using hne
  have h0 : plannedPatrimony goals ≠ 0 := ne_of_gt hpos
  have hgt : 100 < w / plannedPatrimony goals * 100 := by
    have hd : 1 < w / plannedPatrimony goals := (one_lt_div hpos).2 hover
    linarith
  refine ⟨?_, hgt, ?_⟩
  · have hcat : alignmentCategory (w / plannedPatrimony goals * 100)
        = AlignmentCategory.green := by
      rw [alignmentCategory, if_pos (by linarith)]
    simp [calculateAlignment, hlen, h0, hcat]
  · by_cases hg : 90 < p
    · refine Or.inl ⟨hg, ?_, ?_, ?_, ?_⟩
      · rw [alignmentCategory, if_pos hg]
      · rintro ⟨ha, hb⟩
        linarith
      · rintro ⟨ha, hb⟩
        linarith
      · intro hc
        linarith
    · have hg' : p ≤ 90 := not_lt.1 hg
      by_cases hyl : 70 ≤ p
      · refine Or.inr (Or.inl ⟨⟨hyl, hg'⟩, ?_, hg, ?_, ?_⟩)
        · rw [alignmentCategory, if_neg hg, if_pos hyl]
        · rintro ⟨ha, hb⟩
          linarith
        · intro hc
          linarith
      · have hyl' : p < 70 := not_le.1 hyl
        by_cases hyd : 50 ≤ p
        · refine Or.inr (Or.inr (Or.inl ⟨⟨hyd, hyl'⟩, ?_, hg, ?_, ?_⟩))
          · rw [alignmentCategory, if_neg hg, if_neg hyl, if_pos hyd]
          · rintro ⟨ha, hb⟩
            linarith
          · intro hc
            linarith
        · have hyd' : p < 50 := not_le.1 hyd
          refine Or.inr (Or.inr (Or.inr ⟨hyd', ?_, hg, ?_, ?_⟩))
          · rw [alignmentCategory, if_neg hg, if_neg hyl, if_neg hyd]
          · rintro ⟨ha, hb⟩
            linarith
          · rintro ⟨ha, hb⟩
            linarith

/-- Witness for C10: wallet 200 against a single goal of 100. -/
theorem claim_C10_witness :
    calculateAlignment (some 200) [⟨100⟩]
      = Except.ok ⟨200 / plannedPatrimony [⟨100⟩] * 100, AlignmentCategory.green⟩ ∧
    100 < 200 / plannedPatrimony [⟨100⟩] * 100 ∧
    ((90 < (60 : ℚ) ∧ alignmentCategory 60 = AlignmentCategory.green
        ∧ ¬(70 ≤ (60 : ℚ) ∧ (60 : ℚ) ≤ 90) ∧ ¬(50 ≤ (60 : ℚ) ∧ (60 : ℚ) < 70) ∧ ¬(60 : ℚ) < 50)
      ∨ ((70 ≤ (60 : ℚ) ∧ (60 : ℚ) ≤ 90) ∧ alignmentCategory 60 = AlignmentCategory.yellowLight
        ∧ ¬90 < (60 : ℚ) ∧ ¬(50 ≤ (60 : ℚ) ∧ (60 : ℚ) < 70) ∧ ¬(60 : ℚ) < 50)
      ∨ ((50 ≤ (60 : ℚ) ∧ (60 : ℚ) < 70) ∧ alignmentCategory 60 = AlignmentCategory.yellowDark
        ∧ ¬90 < (60 : ℚ) ∧ ¬(70 ≤ (60 : ℚ) ∧ (60 : ℚ) ≤ 90) ∧ ¬(60 : ℚ) < 50)
      ∨ ((60 : ℚ) < 50 ∧ alignmentCategory 60 = AlignmentCategory.red
        ∧ ¬90 < (60 : ℚ) ∧ ¬(70 ≤ (60 : ℚ) ∧ (60 : ℚ) ≤ 90) ∧ ¬(50 ≤ (60 : ℚ) ∧ (60 : ℚ) < 70))) :=
  claim_C10 200 60 [⟨100⟩] (by norm_num [plannedPatrimony]) (by norm_num [plannedPatrimony])

/-- C1: refinement of the engine against the spec's order of operations:
the unique events are summed (signed) into the starting balance exactly
once before the loop, and each simulated month computes
balance' = (balance + monthNet) * (1 + monthlyRate), where monthNet is
the signed sum of the annual events (in January only) plus the signed sum
of the monthly events — events are applied before interest, never after. -/
theorem claim_C1 (init r : ℝ) (events : List (Event ℝ)) (sy sm : ℕ) :
    simulateWealthCurve init events r sy sm
      = simLoop (events.filter fun e => decide (e.frequency = EventFrequency.ANNUAL))
          (events.filter fun e => decide (e.frequency = EventFrequency.MONTHLY))
          (calculateMonthlyRate r) (12 * sy + sm)
          (init + signedSum (events.filter fun e => decide (e.frequency = EventFrequency.UNIQUE))) ∧
    ∀ (aE mE : List (Event ℝ)) (mr : ℝ) (t : ℕ) (b : ℝ),
      monthStep aE mE mr t b
        = (b + ((if t % 12 = 0 then signedSum aE else 0) + signedSum mE)) * (1 + mr) := by
  constructor
  · rw [simulateWealthCurve, calculateValueAfterEvents_eq]
  · intro aE mE mr t b
    by_cases h0 : t % 12 = 0
    · rw [monthStep, if_pos h0, if_pos h0, calculateValueAfterEvents_eq,
        calculateValueAfterEvents_eq]
      ring
    · rw [monthStep, if_neg h0, if_neg h0, calculateValueAfterEvents_eq]
      ring

/-- C8: starting from a strictly negative balance with a strictly positive
annual rate and no events, every recorded value is negative and each
recorded value is strictly below the previous one (the magnitude of the
debt strictly increases; no clamping to zero). -/
theorem claim_C8 (init r : ℝ) (sy sm : ℕ) (hneg : init < 0) (hr : 0 < r) :
    (simulateWealthCurve init [] r sy sm).Forall (fun pt => pt.projectedValue < 0) ∧
    (simulateWealthCurve init [] r sy sm).Pairwise
      (fun a b => b.projectedValue < a.projectedValue) := by
  have hmr : 0 < calculateMonthlyRate r := calculateMonthlyRate_pos r hr
  have hq1 : (1 : ℝ) < calculateMonthlyRate r + 1 := by linarith
  have hq0 : (0 : ℝ) < calculateMonthlyRate r + 1 := by linarith
  rw [simulateWealthCurve_nil, simLoop_nil]
  constructor
  · rw [List.forall_iff_forall_mem]
    intro x hx
    rw [List.mem_map] at hx
    obtain ⟨y, hy, rfl⟩ := hx
    exact mul_neg_of_neg_of_pos hneg (pow_pos hq0 _)
  · rw [List.pairwise_map]
    have hp : List.Pairwise (· < ·)
        (List.range' ((12 * sy + sm) / 12) (2061 - (12 * sy + sm) / 12)) := by
      simpa using List.pairwise_lt_range' ((12 * sy + sm) / 12)
        (2061 - (12 * sy + sm) / 12) 1
    refine hp.imp_of_mem ?_
    intro y1 y2 hm1 hm2 hlt
    rw [List.mem_range'_1] at hm1 hm2
    have he : 12 * (y1 + 1) - (12 * sy + sm) < 12 * (y2 + 1) - (12 * sy + sm) := by
      omega
    exact mul_lt_mul_of_neg_left (pow_lt_pow_right₀ hq1 he) hneg

/-- Witness for C8: debt of 1 at rate 4, started in December 2060. -/
theorem claim_C8_witness :
    (simulateWealthCurve (-1) [] 4 2060 11).Forall (fun pt => pt.projectedValue < 0) ∧
    (simulateWealthCurve (-1) [] 4 2060 11).Pairwise
      (fun a b => b.projectedValue < a.projectedValue) :=
  claim_C8 (-1) 4 2060 11 (by norm_num) (by norm_num)

/-- Outside January, a month with only an annual event is pure
compounding: the annual list is not applied. -/
theorem monthStep_offJan {K : Type} [LinearOrderedField K]
    (aE : List (Event K)) (mr : K) (t : ℕ) (b : K) (h : t % 12 ≠ 0) :
    monthStep aE [] mr t b = b * (mr + 1) := by
  simp [monthStep, h, calculateValueAfterEvents]

/-- In January, a month with only annual events adds their signed sum
before compounding. -/
theorem monthStep_jan {K : Type} [LinearOrderedField K]
    (aE : List (Event K)) (mr : K) (t : ℕ) (b : K) (h : t % 12 = 0) :
    monthStep aE [] mr t b = (b + signedSum aE) * (mr + 1) := by
  have h0 : signedSum ([] : List (Event K)) = 0 := rfl
  rw [monthStep, if_pos h, calculateValueAfterEvents_eq, calculateValueAfterEvents_eq,
    h0, add_zero]

/-- Started off-January with a single annual event, the loop compounds
untouched up to the December of the starting year, records it, and resumes
at the next January: `n` is the number of months to the end of the year. -/
theorem simLoop_annual_skip {K : Type} [LinearOrderedField K] (e : Event K) (mr : K) :
    ∀ (n t : ℕ) (b : K), t % 12 + n = 12 → t % 12 ≠ 0 → t < 24732 →
      simLoop [e] [] mr t b
        = ⟨t / 12, b * (mr + 1) ^ n⟩
            :: simLoop [e] [] mr (t + n) (b * (mr + 1) ^ n) := by
  intro n
  induction n with
  | zero =>
      intro t b h hm hlt
      omega
  | succ n ih =>
      intro t b h hm hlt
      by_cases h11 : t % 12 = 11
      · have hn : n = 0 := by omega
        subst hn
        rw [simLoop, dif_pos hlt, if_pos ⟨h11, by omega⟩, monthStep_offJan _ _ _ _ hm,
          pow_one]
      · rw [simLoop, dif_pos hlt, if_neg (fun hc => h11 hc.1),
          monthStep_offJan _ _ _ _ hm,
          ih (t + 1) (b * (mr + 1)) (by omega) (by omega) (by omega)]
        have hdiv : (t + 1) / 12 = t / 12 := by omega
        have hb : b * (mr + 1) * (mr + 1) ^ n = b * (mr + 1) ^ (n + 1) := by
          rw [pow_succ]
          ring
        have ht : t + 1 + n = t + (n + 1) := by omega
        rw [hdiv, hb, ht]

/-- A January iteration with a single annual event: the event's signed
value is added to the balance before that month's compounding, and no
point is recorded (January is not December). -/
theorem simLoop_jan_step {K : Type} [LinearOrderedField K] (e : Event K) (mr : K)
    (t : ℕ) (b : K) (h0 : t % 12 = 0) (hlt : t < 24732) :
    simLoop [e] [] mr t b
      = simLoop [e] [] mr (t + 1) ((b + signedValue e) * (mr + 1)) := by
  rw [simLoop, dif_pos hlt, if_neg (by omega), monthStep_jan _ _ _ _ h0]
  have hs : signedSum [e] = signedValue e := by
    simp [signedSum]
  rw [hs]

/-- C7: a single ANNUAL event of signed value V in a simulation started on
a non-January date leaves the first recorded year's value B unchanged
(equal to the no-event run); the event first fires in the following
January, where V is added interest-free to the same base B before that
month's compounding, so the second recorded value is (B + V) * (1 + m)^12
against B * (1 + m)^12 for the no-event run. -/
theorem claim_C7 (init r : ℝ) (e : Event ℝ) (sy sm : ℕ)
    (hf : e.frequency = EventFrequency.ANNUAL)
    (h1 : 1 ≤ sm) (h2 : sm ≤ 11) (h3 : sy ≤ 2059) :
    ∃ B : ℝ,
      (simulateWealthCurve init [e] r sy sm).head? = some ⟨sy, B⟩ ∧
      (simulateWealthCurve init [] r sy sm).head? = some ⟨sy, B⟩ ∧
      (simulateWealthCurve init [e] r sy sm)[1]?
        = some ⟨sy + 1, (B + signedValue e) * (calculateMonthlyRate r + 1) ^ 12⟩ ∧
      (simulateWealthCurve init [] r sy sm)[1]?
        = some ⟨sy + 1, B * (calculateMonthlyRate r + 1) ^ 12⟩ := by
  set mr := calculateMonthlyRate r with hmr
  have hsim : simulateWealthCurve init [e] r sy sm
      = simLoop [e] [] mr (12 * sy + sm) init := by
    simp [simulateWealthCurve, hf, calculateValueAfterEvents]
  have hdiv : (12 * sy + sm) / 12 = sy := by omega
  have hskip := simLoop_annual_skip e mr (12 - sm) (12 * sy + sm) init
    (by omega) (by omega) (by omega)
  have hT : 12 * sy + sm + (12 - sm) = 12 * (sy + 1) := by omega
  rw [hT, hdiv] at hskip
  have hjan := simLoop_jan_step e mr (12 * (sy + 1))
    (init * (mr + 1) ^ (12 - sm)) (by omega) (by omega)
  have hskip2 := simLoop_annual_skip e mr 11 (12 * (sy + 1) + 1)
    ((init * (mr + 1) ^ (12 - sm) + signedValue e) * (mr + 1)) (by omega) (by omega)
    (by omega)
  have hdiv2 : (12 * (sy + 1) + 1) / 12 = sy + 1 := by omega
  rw [hdiv2] at hskip2
  have hnil : simulateWealthCurve init [] r sy sm
      = (List.range' ((12 * sy + sm) / 12) (2061 - (12 * sy + sm) / 12)).map
          (fun y => ⟨y, init * (mr + 1) ^ (12 * (y + 1) - (12 * sy + sm))⟩) := by
    rw [simulateWealthCurve_nil, simLoop_nil]
  rw [hdiv] at hnil
  rw [range'_2061_cons sy (by omega), range'_2061_cons (sy + 1) (by omega),
    List.map_cons, List.map_cons] at hnil
  refine ⟨init * (mr + 1) ^ (12 - sm), ?_, ?_, ?_, ?_⟩
  · rw [hsim, hskip]
    rfl
  · rw [hnil]
    have he1 : 12 * (sy + 1) - (12 * sy + sm) = 12 - sm := by omega
    simp [he1]
  · have hv : (init * (mr + 1) ^ (12 - sm) + signedValue e) * (mr + 1) * (mr + 1) ^ 11
        = (init * (mr + 1) ^ (12 - sm) + signedValue e) * (mr + 1) ^ 12 := by
      ring
    rw [hsim, hskip, hjan, hskip2, hv]
    simp
  · rw [hnil]
    have he2 : 12 * (sy + 1 + 1) - (12 * sy + sm) = (12 - sm) + 12 := by omega
    rw [he2, pow_add]
    simp [mul_assoc]

/-- Witness for C7: an annual INCOME event of 5, simulation started in
July 2059 at rate 4. -/
theorem claim_C7_witness :
    ∃ B : ℝ,
      (simulateWealthCurve 2 [⟨5, EventCategory.INCOME, EventFrequency.ANNUAL⟩] 4 2059 6).head?
        = some ⟨2059, B⟩ ∧
      (simulateWealthCurve 2 [] 4 2059 6).head? = some ⟨2059, B⟩ ∧
      (simulateWealthCurve 2 [⟨5, EventCategory.INCOME, EventFrequency.ANNUAL⟩] 4 2059 6)[1]?
        = some ⟨2059 + 1,
            (B + signedValue ⟨5, EventCategory.INCOME, EventFrequency.ANNUAL⟩)
              * (calculateMonthlyRate 4 + 1) ^ 12⟩ ∧
      (simulateWealthCurve 2 [] 4 2059 6)[1]?
        = some ⟨2059 + 1, B * (calculateMonthlyRate 4 + 1) ^ 12⟩ :=
  claim_C7 2 4 ⟨5, EventCategory.INCOME, EventFrequency.ANNUAL⟩ 2059 6 rfl
    (by norm_num) (by norm_num) (by norm_num)

end WealthPlanning
